import Mathlib

/-!
Verification development for the browser-DAW real-time audio effect engine.

The definitions below are a shallow embedding of the effect-processing code:
the delay (`SyncDelayNode`), the reverb (`ReverbNode`), the compressor and
gate/denoiser (`CompressorNode` / `DenoiserNode`), the auto-tune worklet
(`AutoTuneProcessor`) and the offline analysis engine
(`AudioAnalysisEngine`).  JavaScript numbers are modelled as exact values:
a `JsNum` is either a finite rational or one of the non-finite values
(`NaN`, `±Infinity`); purely-finite code paths use `ℚ` or `ℝ` directly.
-/

namespace DAW

/-- A JavaScript number: a finite (exact) rational, `NaN`, or a signed
infinity.  Floating-point rounding is outside the model; finite values are
exact. -/
inductive JsNum where
  | num (q : ℚ)
  | nan
  | posInf
  | negInf
deriving DecidableEq, Repr

namespace JsNum

/-- `Number.isFinite v`. -/
def isFinite : JsNum → Bool
  | num _ => true
  | _ => false

/-- JavaScript truthiness of a number: `0` and `NaN` are falsy, every other
number (including the infinities) is truthy. -/
def truthy : JsNum → Bool
  | num q => decide (q ≠ 0)
  | nan => false
  | posInf => true
  | negInf => true

/-- `a || b` on numbers: `a` when truthy, otherwise `b`. -/
def orElse (a b : JsNum) : JsNum := if a.truthy then a else b

/-- JS addition. -/
def add : JsNum → JsNum → JsNum
  | num a, num b => num (a + b)
  | nan, _ => nan
  | _, nan => nan
  | posInf, negInf => nan
  | negInf, posInf => nan
  | posInf, _ => posInf
  | _, posInf => posInf
  | negInf, _ => negInf
  | _, negInf => negInf

/-- JS negation. -/
def neg : JsNum → JsNum
  | num a => num (-a)
  | nan => nan
  | posInf => negInf
  | negInf => posInf

/-- JS subtraction. -/
def sub (a b : JsNum) : JsNum := a.add b.neg

/-- JS multiplication (with `±∞ * 0 = NaN`). -/
def mul : JsNum → JsNum → JsNum
  | num a, num b => num (a * b)
  | nan, _ => nan
  | _, nan => nan
  | posInf, num b => if b = 0 then nan else if 0 < b then posInf else negInf
  | num a, posInf => if a = 0 then nan else if 0 < a then posInf else negInf
  | negInf, num b => if b = 0 then nan else if 0 < b then negInf else posInf
  | num a, negInf => if a = 0 then nan else if 0 < a then negInf else posInf
  | posInf, posInf => posInf
  | negInf, negInf => posInf
  | posInf, negInf => negInf
  | negInf, posInf => negInf

/-- JS division (`x/0 = ±∞` for `x ≠ 0`, `0/0 = NaN`, `∞/∞ = NaN`;
the sign of negative zero is not modelled). -/
def div : JsNum → JsNum → JsNum
  | num a, num b =>
      if b = 0 then (if a = 0 then nan else if 0 < a then posInf else negInf)
      else num (a / b)
  | nan, _ => nan
  | _, nan => nan
  | num _, posInf => num 0
  | num _, negInf => num 0
  | posInf, num b => if 0 ≤ b then posInf else negInf
  | negInf, num b => if 0 ≤ b then negInf else posInf
  | _, posInf => nan
  | _, negInf => nan

/-- `Math.max` on two numbers: `NaN` if either argument is `NaN`. -/
def max2 : JsNum → JsNum → JsNum
  | nan, _ => nan
  | _, nan => nan
  | posInf, _ => posInf
  | _, posInf => posInf
  | negInf, b => b
  | a, negInf => a
  | num a, num b => num (max a b)

/-- JS strict inequality `a !== b` on numbers: `NaN` is unequal to
everything, itself included. -/
def strictNeq (a b : JsNum) : Bool :=
  if a = nan ∨ b = nan then true else decide (a ≠ b)

end JsNum

/-- `safe(v, def)` from `applyParams`: keep a finite value, otherwise fall
back to the fixed default `d` (NOT to the previous value). -/
def jsSafe (v : JsNum) (d : ℚ) : ℚ :=
  match v with
  | .num q => q
  | _ => d

/-- Musical delay divisions of `DelayParams`. -/
inductive DelayDivision where
  | d1_1 | d1_2 | d1_2D | d1_4 | d1_4D | d1_4T
  | d1_8 | d1_8D | d1_8T | d1_16 | d1_16D | d1_16T | d1_32
deriving DecidableEq, Repr

/-- `DIVISION_FACTORS`: beats per echo for each division. -/
def DIVISION_FACTORS : DelayDivision → ℚ
  | .d1_1 => 4
  | .d1_2 => 2
  | .d1_2D => 3
  | .d1_4 => 1
  | .d1_4D => 1.5
  | .d1_4T => 0.667
  | .d1_8 => 0.5
  | .d1_8D => 0.75
  | .d1_8T => 0.333
  | .d1_16 => 0.25
  | .d1_16D => 0.375
  | .d1_16T => 0.167
  | .d1_32 => 0.125

/-- Sync-to-BPM or free-time mode. -/
inductive DelayMode where
  | SYNC | FREE
deriving DecidableEq, Repr

/-- The delay effect's parameter set (`DelayParams`).  Documented ranges:
`timeMs` 1–2000 ms, `feedback` 0–0.95, `lowCut` 20–500 Hz, `highCut`
1000–20000 Hz, `damping` 1000–20000 Hz, `mix` 0–1, `stereoOffset` −50–50 ms,
`width` 0–2, `modRate` 0–5 Hz, `modDepth` 0–1, `drive` 0–1, `ducking` 0–1. -/
structure DelayParams where
  mode : DelayMode
  division : DelayDivision
  timeMs : JsNum
  feedback : JsNum
  lowCut : JsNum
  highCut : JsNum
  damping : JsNum
  mix : JsNum
  stereoOffset : JsNum
  width : JsNum
  modRate : JsNum
  modDepth : JsNum
  drive : JsNum
  ducking : JsNum
  pingPong : Bool
  bpm : JsNum
  isEnabled : Bool
deriving DecidableEq, Repr

/-- The constructor's initial parameter set of `SyncDelayNode`. -/
def initialDelayParams (initialBpm : JsNum) : DelayParams where
  mode := .SYNC
  division := .d1_4
  timeMs := .num 250
  feedback := .num 0.4
  lowCut := .num 80
  highCut := .num 12000
  damping := .num 8000
  mix := .num 0.3
  stereoOffset := .num 0
  width := .num 1
  modRate := .num 0.5
  modDepth := .num 0.1
  drive := .num 0.3
  ducking := .num 0
  pingPong := false
  bpm := initialBpm
  isEnabled := true

/-- A sparse update `Partial<DelayParams>`: absent fields are `none`. -/
structure PartialDelayParams where
  mode : Option DelayMode := none
  division : Option DelayDivision := none
  timeMs : Option JsNum := none
  feedback : Option JsNum := none
  lowCut : Option JsNum := none
  highCut : Option JsNum := none
  damping : Option JsNum := none
  mix : Option JsNum := none
  stereoOffset : Option JsNum := none
  width : Option JsNum := none
  modRate : Option JsNum := none
  modDepth : Option JsNum := none
  drive : Option JsNum := none
  ducking : Option JsNum := none
  pingPong : Option Bool := none
  bpm : Option JsNum := none
  isEnabled : Option Bool := none
deriving DecidableEq, Repr

/-- The spread-merge `{ ...this.params, ...p }`. -/
def mergeDelay (s : DelayParams) (p : PartialDelayParams) : DelayParams where
  mode := p.mode.getD s.mode
  division := p.division.getD s.division
  timeMs := p.timeMs.getD s.timeMs
  feedback := p.feedback.getD s.feedback
  lowCut := p.lowCut.getD s.lowCut
  highCut := p.highCut.getD s.highCut
  damping := p.damping.getD s.damping
  mix := p.mix.getD s.mix
  stereoOffset := p.stereoOffset.getD s.stereoOffset
  width := p.width.getD s.width
  modRate := p.modRate.getD s.modRate
  modDepth := p.modDepth.getD s.modDepth
  drive := p.drive.getD s.drive
  ducking := p.ducking.getD s.ducking
  pingPong := p.pingPong.getD s.pingPong
  bpm := p.bpm.getD s.bpm
  isEnabled := p.isEnabled.getD s.isEnabled

/-- The smoothed coefficient targets that one call to
`SyncDelayNode.applyParams` schedules on the graph nodes (`none` = that
`setTargetAtTime` call is not made).  The `safe()`-guarded ones are always
finite (`ℚ`); the delay-time targets are computed without a guard and can
be non-finite (`JsNum`). -/
structure DelayTargets where
  delayTimeL : Option JsNum
  delayTimeR : Option JsNum
  feedbackGain : Option ℚ
  lowCutFreq : Option ℚ
  highCutFreq : Option ℚ
  dampingFreq : Option ℚ
  modLfoFreq : Option ℚ
  modGainL : Option ℚ
  modGainR : Option ℚ
  midGain : Option ℚ
  sideGain : Option ℚ
  dryGain : Option ℚ
  wetGain : Option ℚ
deriving DecidableEq, Repr

/-- `SyncDelayNode.applyParams`. -/
def applyDelayParams (params : DelayParams) : DelayTargets :=
  let delaySeconds : JsNum :=
    match params.mode with
    | .SYNC =>
        let beatDuration := (JsNum.num 60).div (params.bpm.orElse (.num 120))
        beatDuration.mul (.num (DIVISION_FACTORS params.division))
    | .FREE => params.timeMs.div (.num 1000)
  let offsetSeconds := params.stereoOffset.div (.num 1000)
  let delayL := (JsNum.num 0.001).max2 (delaySeconds.sub (offsetSeconds.div (.num 2)))
  let delayR := (JsNum.num 0.001).max2 (delaySeconds.add (offsetSeconds.div (.num 2)))
  if params.isEnabled then
    let modAmount := jsSafe params.modDepth 0.1 * 0.005
    let width := jsSafe params.width 1
    let mix := jsSafe params.mix 0.3
    { delayTimeL := some delayL
      delayTimeR := some delayR
      feedbackGain := some (jsSafe params.feedback 0.4)
      lowCutFreq := some (jsSafe params.lowCut 80)
      highCutFreq := some (jsSafe params.highCut 12000)
      dampingFreq := some (jsSafe params.damping 8000)
      modLfoFreq := some (jsSafe params.modRate 0.5)
      modGainL := some modAmount
      modGainR := some (modAmount * 1.1)
      midGain := some (2 - width)
      sideGain := some width
      dryGain := some (1 - mix * 0.5)
      wetGain := some mix }
  else
    { delayTimeL := none, delayTimeR := none, feedbackGain := none
      lowCutFreq := none, highCutFreq := none, dampingFreq := none
      modLfoFreq := none, modGainL := none, modGainR := none
      midGain := none, sideGain := none
      dryGain := some 1, wetGain := some 0 }

/-- `SyncDelayNode.updateParams`: merge the sparse update, then apply; the
booleans record whether `updateRouting` / `updateDriveCurve` were invoked. -/
def updateDelayParams (params : DelayParams) (p : PartialDelayParams) :
    DelayParams × DelayTargets × Bool × Bool :=
  let merged := mergeDelay params p
  let routingChanged :=
    match p.pingPong with
    | some v => v ≠ params.pingPong
    | none => false
  let driveChanged :=
    match p.drive with
    | some v => v.strictNeq params.drive
    | none => false
  (merged, applyDelayParams merged, routingChanged, driveChanged)

/-- `SyncDelayNode.getParams` returns a copy of the stored parameter set. -/
def getDelayParams (params : DelayParams) : DelayParams := params

/-- Every numeric field of a stored delay parameter set is finite. -/
def DelayParams.allFinite (s : DelayParams) : Prop :=
  s.timeMs.isFinite ∧ s.feedback.isFinite ∧ s.lowCut.isFinite ∧
  s.highCut.isFinite ∧ s.damping.isFinite ∧ s.mix.isFinite ∧
  s.stereoOffset.isFinite ∧ s.width.isFinite ∧ s.modRate.isFinite ∧
  s.modDepth.isFinite ∧ s.drive.isFinite ∧ s.ducking.isFinite ∧
  s.bpm.isFinite

instance (s : DelayParams) : Decidable s.allFinite := by
  unfold DelayParams.allFinite; infer_instance

/-- Every numeric field present in a sparse update is finite. -/
def PartialDelayParams.allFinite (p : PartialDelayParams) : Prop :=
  (∀ v ∈ p.timeMs, v.isFinite) ∧ (∀ v ∈ p.feedback, v.isFinite) ∧
  (∀ v ∈ p.lowCut, v.isFinite) ∧ (∀ v ∈ p.highCut, v.isFinite) ∧
  (∀ v ∈ p.damping, v.isFinite) ∧ (∀ v ∈ p.mix, v.isFinite) ∧
  (∀ v ∈ p.stereoOffset, v.isFinite) ∧ (∀ v ∈ p.width, v.isFinite) ∧
  (∀ v ∈ p.modRate, v.isFinite) ∧ (∀ v ∈ p.modDepth, v.isFinite) ∧
  (∀ v ∈ p.drive, v.isFinite) ∧ (∀ v ∈ p.ducking, v.isFinite) ∧
  (∀ v ∈ p.bpm, v.isFinite)

instance (p : PartialDelayParams) : Decidable p.allFinite := by
  unfold PartialDelayParams.allFinite; infer_instance

/-! ### Compressor saturation and delay drive curves -/

/-- Compressor character modes (`CompressorParams.mode`). -/
inductive CompMode where
  | CLEAN | VCA | OPTO | FET
deriving DecidableEq, Repr

/-- `Math.sign` (the sign of negative zero is not modelled). -/
noncomputable def jsSign (x : ℝ) : ℝ :=
  if x < 0 then -1 else if 0 < x then 1 else 0

/-- One sample of the waveshaping curve precomputed by
`CompressorNode.updateSaturationCurve` (44100 samples, `x = 2i/44100 − 1`). -/
noncomputable def saturationCurve (mode : CompMode) (i : ℕ) : ℝ :=
  let x : ℝ := (i * 2 : ℝ) / 44100 - 1
  match mode with
  | .CLEAN => x
  | .VCA => Real.tanh (x * 1.2) * 0.95
  | .OPTO => 3 * x / (1 + 2 * |x|) * 0.9
  | .FET => jsSign x * (1 - Real.exp (-|x| * 2)) * 0.85

/-- One sample of the tape-drive curve precomputed by
`SyncDelayNode.updateDriveCurve` (44100 samples, `amount = 10 + 90·drive`). -/
noncomputable def tapeDriveCurve (drive : ℝ) (i : ℕ) : ℝ :=
  let amount : ℝ := 10 + drive * 90
  let x : ℝ := (i * 2 : ℝ) / 44100 - 1
  if drive < 0.1 then x
  else Real.tanh (x * (1 + amount * 0.1)) * 0.9

/-! ### Gate/denoiser detector loop -/

/-- `DenoiserParams`.  Documented ranges: `threshold` −60–0 dB, `range`
−80–0 dB, `attack` 0.0001–0.1 s, `hold` 0–0.5 s, `release` 0.01–2 s,
`scFreq` 20–20000 Hz. -/
structure DenoiserParams where
  threshold : ℝ
  range : ℝ
  attack : ℝ
  hold : ℝ
  release : ℝ
  scFreq : ℝ
  flip : Bool
  isEnabled : Bool

/-- The mutable detector scalars of `DenoiserNode`. -/
structure GateState where
  currentGain : ℝ
  targetGain : ℝ
  holdCounter : ℝ
  isGateOpen : Bool
  inputLevel : ℝ

/-- The constructor's initial detector state. -/
def initialGateState : GateState where
  currentGain := 1
  targetGain := 1
  holdCounter := 0
  isGateOpen := true
  inputLevel := -100

/-- Sum of squares accumulated over the analyser window. -/
noncomputable def sumSquares (l : List ℝ) : ℝ := (l.map fun x => x * x).sum

/-- RMS of the analyser window, `sqrt(Σx²/N)`. -/
noncomputable def rmsOf (l : List ℝ) : ℝ := Real.sqrt (sumSquares l / l.length)

/-- The dB level `20·log10(max(rms, 1e-6))` computed by `processGain`. -/
noncomputable def detectedDb (l : List ℝ) : ℝ :=
  20 * Real.logb 10 (max (rmsOf l) 0.000001)

open Classical in
/-- One 60 Hz tick of `DenoiserNode.processGain`, taking the analyser's
time-domain window as input. -/
noncomputable def processGain (p : DenoiserParams) (analyzerData : List ℝ)
    (s : GateState) : GateState :=
  if p.isEnabled = false then
    { s with currentGain := 1 }
  else
    let db := detectedDb analyzerData
    let isAboveThreshold : Prop :=
      if p.flip = true then db < p.threshold else p.threshold ≤ db
    let s1 :=
      if isAboveThreshold then
        { s with targetGain := 1, holdCounter := p.hold * 60, isGateOpen := true }
      else if 0 < s.holdCounter then
        { s with holdCounter := s.holdCounter - 1, targetGain := 1 }
      else
        { s with targetGain := (10 : ℝ) ^ (p.range / 20), isGateOpen := false }
    let timeConstant := if s.currentGain < s1.targetGain then p.attack else p.release
    let alpha := 1 - Real.exp (-1 / (60 * timeConstant))
    { s1 with
      inputLevel := db
      currentGain := s.currentGain + (s1.targetGain - s.currentGain) * alpha }

/-- The C3 scenario: one tick with the level parked at its pre-drop value
(`bufHigh`), then ticks with the dropped level (`bufLow`) forever. -/
noncomputable def gateScenario (p : DenoiserParams) (bufHigh bufLow : List ℝ) :
    ℕ → GateState
  | 0 => processGain p bufHigh initialGateState
  | n + 1 => processGain p bufLow (gateScenario p bufHigh bufLow n)

/-! ### Reverb: impulse-response generation and freeze -/

/-- `Math.round` (ties round up, as in JS). -/
noncomputable def jsRoundR (x : ℝ) : ℤ := ⌊x + 1 / 2⌋

/-- `Math.round` on an exact rational. -/
def jsRoundQ (q : ℚ) : ℤ := ⌊q + 1 / 2⌋

/-- Reverb room-character modes. -/
inductive ReverbMode where
  | ROOM | HALL | PLATE | CATHEDRAL | SHIMMER
deriving DecidableEq, Repr

/-- `ReverbParams`.  Documented ranges: `decay` 0.1–15 s, `preDelay`
0–0.2 s, `size` 0–1, `damping` 100–20000 Hz, `mix` 0–1, `lowCut`
20–1000 Hz, `highCut` 1000–20000 Hz, `width` 0–2, `modRate` 0–5 Hz,
`modDepth` 0–1, `erLevel` 0–1, `ducking` 0–1. -/
structure ReverbParams where
  decay : ℚ
  preDelay : ℚ
  size : ℚ
  damping : ℚ
  mix : ℚ
  lowCut : ℚ
  highCut : ℚ
  width : ℚ
  modRate : ℚ
  modDepth : ℚ
  erLevel : ℚ
  freeze : Bool
  ducking : ℚ
  mode : ReverbMode
  isEnabled : Bool
deriving DecidableEq, Repr

/-- The constructor's initial reverb parameter set. -/
def initialReverbParams : ReverbParams where
  decay := 2.5
  preDelay := 0.025
  size := 0.7
  damping := 10000
  mix := 0.3
  lowCut := 100
  highCut := 12000
  width := 1
  modRate := 0.5
  modDepth := 0.1
  erLevel := 0.3
  freeze := false
  ducking := 0
  mode := .HALL
  isEnabled := true

/-- A sparse update `Partial<ReverbParams>`. -/
structure PartialReverbParams where
  decay : Option ℚ := none
  preDelay : Option ℚ := none
  size : Option ℚ := none
  damping : Option ℚ := none
  mix : Option ℚ := none
  lowCut : Option ℚ := none
  highCut : Option ℚ := none
  width : Option ℚ := none
  modRate : Option ℚ := none
  modDepth : Option ℚ := none
  erLevel : Option ℚ := none
  freeze : Option Bool := none
  ducking : Option ℚ := none
  mode : Option ReverbMode := none
  isEnabled : Option Bool := none
deriving DecidableEq, Repr

/-- The spread-merge `{ ...this.params, ...p }` for the reverb. -/
def mergeReverb (s : ReverbParams) (p : PartialReverbParams) : ReverbParams where
  decay := p.decay.getD s.decay
  preDelay := p.preDelay.getD s.preDelay
  size := p.size.getD s.size
  damping := p.damping.getD s.damping
  mix := p.mix.getD s.mix
  lowCut := p.lowCut.getD s.lowCut
  highCut := p.highCut.getD s.highCut
  width := p.width.getD s.width
  modRate := p.modRate.getD s.modRate
  modDepth := p.modDepth.getD s.modDepth
  erLevel := p.erLevel.getD s.erLevel
  freeze := p.freeze.getD s.freeze
  ducking := p.ducking.getD s.ducking
  mode := p.mode.getD s.mode
  isEnabled := p.isEnabled.getD s.isEnabled

/-- Mode-dependent density multiplier of `updateImpulseResponse`. -/
def modeDensityFactor : ReverbMode → ℚ
  | .ROOM => 0.6
  | .HALL => 1
  | .PLATE => 2.5
  | .CATHEDRAL => 0.8
  | .SHIMMER => 3

/-- Mode-dependent decay-shape exponent of `updateImpulseResponse`. -/
def modeDecayPower : ReverbMode → ℕ
  | .ROOM => 8
  | .HALL => 5
  | .PLATE => 6
  | .CATHEDRAL => 3
  | .SHIMMER => 4

/-- A generated multi-channel sample buffer (an `AudioBuffer` of the
convolver); channels are total functions, zero outside `numFrames`. -/
structure IRBuffer where
  numFrames : ℕ
  left : ℕ → ℝ
  right : ℕ → ℝ

/-- The stochastic sparse-impulse write loop of `updateImpulseResponse`
for one channel.  `rnd` is the `Math.random()` stream (indexed by draw),
`j` the next draw, `k` the write cursor.  The source's `while (k < length)`
loop exits through the `k + step >= length` break; the fuel bound
(`length` iterations) is reached only on inputs where the JS loop would
not terminate (a stalled cursor). -/
noncomputable def irWriteLoop (sampleRate density duration : ℝ)
    (decayPower : ℕ) (len : ℕ) (isRight : Bool) (rnd : ℕ → ℝ) :
    ℕ → ℤ → ℕ → List (ℤ × ℝ)
  | 0, _, _ => []
  | fuel + 1, k, j =>
      let step : ℤ := jsRoundR (sampleRate / density * (0.5 + rnd j))
      if (len : ℤ) ≤ k + step then []
      else
        let k2 := k + step
        let time : ℝ := (k2 : ℝ) / sampleRate
        let envelope : ℝ := (1 - time / duration) ^ decayPower
        let sign : ℝ := if 0.5 < rnd (j + 1) then 1 else -1
        let spread : ℝ := if isRight then 0.85 + rnd (j + 2) * 0.3 else 1
        let jNext := if isRight then j + 3 else j + 2
        (k2, sign * envelope * spread * 0.85) ::
          irWriteLoop sampleRate density duration decayPower len isRight rnd
            fuel k2 jNext

/-- Replay a list of indexed writes onto a zero-initialised channel (later
writes win; negative cursors fall outside the typed array and are
dropped). -/
noncomputable def applyWrites (ws : List (ℤ × ℝ)) : ℕ → ℝ :=
  ws.foldl (fun f w => fun i => if (i : ℤ) = w.1 then w.2 else f i) (fun _ => 0)

/-- `ReverbNode.updateImpulseResponse` (the generation itself, without the
`isFrozen` early-return, which lives in the update state machine): a
stereo buffer of `floor(sampleRate * min(decay, 15))` frames per channel
filled by stochastic sparse impulses.  `rndL`/`rndR` are the random
streams consumed by the two channel loops. -/
noncomputable def generateImpulseResponse (sampleRate : ℚ)
    (params : ReverbParams) (rndL rndR : ℕ → ℝ) : IRBuffer :=
  let duration : ℚ := min params.decay 15
  let len : ℕ := (Int.floor (sampleRate * duration)).toNat
  let density : ℚ := params.size * 2500 * modeDensityFactor params.mode
  let pw : ℕ := modeDecayPower params.mode
  { numFrames := len
    left := applyWrites
      (irWriteLoop (sampleRate : ℝ) (density : ℝ) ((duration : ℚ) : ℝ) pw len
        false rndL len 0 0)
    right := applyWrites
      (irWriteLoop (sampleRate : ℝ) (density : ℝ) ((duration : ℚ) : ℝ) pw len
        true rndR len 0 0) }

/-- The 10-second sustained-noise buffer built by `activateFreeze`. -/
noncomputable def freezeNoiseBuffer (sampleRate : ℚ) (rndL rndR : ℕ → ℝ) :
    IRBuffer where
  numFrames := (Int.floor (sampleRate * 10)).toNat
  left := fun i => (rndL i * 2 - 1) * 0.3
  right := fun i => (rndR i * 2 - 1) * 0.3

/-- The state of a `ReverbNode` that the buffer-management code touches. -/
structure ReverbState where
  params : ReverbParams
  convolverBuffer : IRBuffer
  freezeBuffer : Option IRBuffer
  isFrozen : Bool

/-- `ReverbNode.updateParams`: merge, conditionally regenerate the IR
(only when decay/size/mode changed, not frozen — `updateImpulseResponse`
itself early-returns when `isFrozen`), then handle the freeze toggle
(`activateFreeze` stores the current buffer and swaps in noise;
`deactivateFreeze` restores the stored buffer, or regenerates if none was
stored — the regeneration call happens before `isFrozen` is cleared, so it
early-returns).  The smoothed `setTargetAtTime` side effects touch no
state tracked here.  `rndIrL/rndIrR/rndNzL/rndNzR` are the random streams
for a regeneration and for the freeze noise. -/
noncomputable def updateReverbParams (sampleRate : ℚ)
    (rndIrL rndIrR rndNzL rndNzR : ℕ → ℝ)
    (s : ReverbState) (p : PartialReverbParams) : ReverbState :=
  let merged := mergeReverb s.params p
  let s1 : ReverbState := { s with params := merged }
  let s2 : ReverbState :=
    if merged.decay ≠ s.params.decay ∨ merged.size ≠ s.params.size ∨
        merged.mode ≠ s.params.mode then
      if merged.freeze = false then
        if s1.isFrozen then s1
        else { s1 with
          convolverBuffer := generateImpulseResponse sampleRate merged rndIrL rndIrR }
      else s1
    else s1
  if merged.freeze = true ∧ s.params.freeze = false then
    { s2 with
      freezeBuffer := some s2.convolverBuffer
      convolverBuffer := freezeNoiseBuffer sampleRate rndNzL rndNzR
      isFrozen := true }
  else if merged.freeze = false ∧ s.params.freeze = true then
    match s2.freezeBuffer with
    | some b => { s2 with convolverBuffer := b, isFrozen := false }
    | none =>
        if s2.isFrozen then { s2 with isFrozen := false }
        else { s2 with
          convolverBuffer := generateImpulseResponse sampleRate merged rndIrL rndIrR
          isFrozen := false }
  else s2

/-- A sparse reverb update that names none of decay, size, mode, freeze. -/
def PartialReverbParams.untouched (p : PartialReverbParams) : Prop :=
  p.decay = none ∧ p.size = none ∧ p.mode = none ∧ p.freeze = none

/-! ### Auto-tune worklet: pitch detection and correction -/

/-- The scale templates of `AutoTuneProcessor` (`this.scales`), in the
order of `this.scaleNames`: CHROMATIC, MAJOR, MINOR, MINOR_HARMONIC,
PENTATONIC, TRAP_DARK. -/
def scaleTable : List (List ℤ) :=
  [[0, 1, 2, 3, 4, 5, 6, 7, 8, 9, 10, 11],
   [0, 2, 4, 5, 7, 9, 11],
   [0, 2, 3, 5, 7, 8, 10],
   [0, 2, 3, 5, 7, 8, 11],
   [0, 3, 5, 7, 10],
   [0, 1, 4, 5, 7, 8, 11]]

/-- `this.scales[this.scaleNames[scaleIdx] || 'CHROMATIC']`: an index
outside the table falls back to the chromatic scale. -/
def currentScale (scaleIdx : ℤ) : List ℤ :=
  if 0 ≤ scaleIdx ∧ scaleIdx < 6 then
    scaleTable.getD scaleIdx.toNat [0, 1, 2, 3, 4, 5, 6, 7, 8, 9, 10, 11]
  else [0, 1, 2, 3, 4, 5, 6, 7, 8, 9, 10, 11]

open Classical in
/-- `AutoTuneProcessor.detectPitch`: RMS-gated autocorrelation over lags
40–599; returns 0 ("no pitch") below the amplitude floor or when no lag
exceeds the correlation floor. -/
noncomputable def detectPitch (sampleRate : ℝ) (buffer : List ℝ) : ℝ :=
  let SIZE := buffer.length
  let rms := Real.sqrt (sumSquares buffer / SIZE)
  if rms < 0.01 then 0
  else
    let corrOf : ℕ → ℝ := fun offset =>
      (((List.range (SIZE - offset)).filter (fun i => i % 2 = 0)).map
        (fun i => buffer.getD i 0 * buffer.getD (i + offset) 0)).sum
    let best :=
      (List.range' 40 560).foldl
        (fun acc offset =>
          if acc.1 < corrOf offset then (corrOf offset, (offset : ℤ)) else acc)
        ((0 : ℝ), (-1 : ℤ))
    if 0.5 < best.1 ∧ 0 < best.2 then sampleRate / (best.2 : ℝ) else 0

open Classical in
/-- `AutoTuneProcessor.getNearestFreq`: nearest-scale-note mapping with
octave-wrap handling; non-positive input frequencies are returned
unchanged. -/
noncomputable def getNearestFreq (inputFreq : ℝ) (rootKey scaleIdx : ℤ) : ℝ :=
  if inputFreq ≤ 0 then inputFreq
  else
    let midi : ℝ := 69 + 12 * Real.logb 2 (inputFreq / 440)
    let note : ℤ := jsRoundR midi
    let noteInOctave : ℤ := Int.tmod note 12
    let relativeNote : ℤ := Int.tmod (noteInOctave - rootKey + 12) 12
    let pick :=
      (currentScale scaleIdx).foldl
        (fun acc scaleNote =>
          let diff0 : ℤ := |relativeNote - scaleNote|
          let diff : ℤ := if 6 < diff0 then 12 - diff0 else diff0
          match acc.1 with
          | none => (some diff, scaleNote)
          | some m => if diff < m then (some diff, scaleNote) else acc)
        ((none : Option ℤ), relativeNote)
    let targetRelative : ℤ := pick.2
    let dist : ℤ := targetRelative - relativeNote
    let octaveShift : ℤ := if 6 < dist then -1 else if dist < -6 then 1 else 0
    let targetMidi : ℤ := (⌊midi / 12⌋ + octaveShift) * 12 + targetRelative + rootKey
    440 * (2 : ℝ) ^ (((targetMidi : ℝ) - 69) / 12)

open Classical in
/-- The per-block target-ratio computation of `AutoTuneProcessor.process`:
identity ratio unless both the detected and the target frequency exceed
50 Hz, then clamped to [0.5, 2]. -/
noncomputable def targetRatioOf (lastDetectedFreq targetFreq : ℝ) : ℝ :=
  let t0 : ℝ :=
    if 50 < lastDetectedFreq ∧ 50 < targetFreq then targetFreq / lastDetectedFreq
    else 1
  max 0.5 (min 2.0 t0)

/-- The one-pole smoothing of `this.currentRatio` in `process`. -/
noncomputable def nextRatio (currentRatio retuneSpeed lastDetectedFreq : ℝ)
    (rootKey scaleIdx : ℤ) : ℝ :=
  let targetFreq := getNearestFreq lastDetectedFreq rootKey scaleIdx
  let targetRatio := targetRatioOf lastDetectedFreq targetFreq
  let smoothing := 0.01 + retuneSpeed * 0.1
  currentRatio * (1 - smoothing) + targetRatio * smoothing

/-! ### Offline analysis engine: tempo detection -/

/-- The fixed analysis sample rate of `detectBPMAdvanced` (11025 Hz). -/
def bpmSampleRate : ℚ := 11025

/-- `hopSize = floor(sampleRate * 0.01)` (10 ms hop). -/
def bpmHopSize : ℕ := (Int.floor (bpmSampleRate * 0.01)).toNat

/-- `frameSize = floor(sampleRate * 0.02)` (20 ms frame). -/
def bpmFrameSize : ℕ := (Int.floor (bpmSampleRate * 0.02)).toNat

/-- `minLag = floor(60/200 * (sampleRate / hopSize))` (200 BPM). -/
def bpmMinLag : ℕ :=
  (Int.floor ((60 / 200 : ℚ) * (bpmSampleRate / (bpmHopSize : ℚ)))).toNat

/-- `maxLag = floor(60/60 * (sampleRate / hopSize))` (60 BPM). -/
def bpmMaxLag : ℕ :=
  (Int.floor ((60 / 60 : ℚ) * (bpmSampleRate / (bpmHopSize : ℚ)))).toNat

/-- The windowed RMS energy envelope of the band-passed signal. -/
noncomputable def bpmEnvelope (data : List ℝ) : List ℝ :=
  (List.range data.length).filterMap fun k =>
    let i := k * bpmHopSize
    if (i : ℤ) < (data.length : ℤ) - (bpmFrameSize : ℤ) then
      some (Real.sqrt
        ((((List.range bpmFrameSize).map
          (fun j => data.getD (i + j) 0 * data.getD (i + j) 0)).sum) /
          (bpmFrameSize : ℝ)))
    else none

/-- The half-wave-rectified first difference of the envelope (onset
strength), seeded with a leading 0. -/
noncomputable def bpmOnsetStrength (env : List ℝ) : List ℝ :=
  0 :: (List.range (env.length - 1)).map
    (fun i => max 0 (env.getD (i + 1) 0 - env.getD i 0))

/-- The normalised autocorrelation of the onset signal at one lag (the
empty-overlap case `0/0` is 0 here; in JS it is `NaN`, which the strict
`>` maximum search likewise never selects). -/
noncomputable def bpmAutocorrAt (onset : List ℝ) (lag : ℕ) : ℝ :=
  let count := onset.length - lag
  (((List.range count).map
    (fun i => onset.getD i 0 * onset.getD (i + lag) 0)).sum) / (count : ℝ)

open Classical in
/-- The maximum-autocorrelation lag over `minLag..maxLag` (ties and the
all-zero case keep `minLag`). -/
noncomputable def bpmBestLag (onset : List ℝ) : ℕ :=
  ((List.range' bpmMinLag (bpmMaxLag - bpmMinLag + 1)).foldl
    (fun acc lag =>
      if acc.1 < bpmAutocorrAt onset lag then (bpmAutocorrAt onset lag, lag)
      else acc)
    ((0 : ℝ), bpmMinLag)).2

open Classical in
/-- `while (bpm < 70) bpm *= 2`, embedded with a fuel bound; on every value
the source reaches, one iteration suffices and extra fuel is inert. -/
noncomputable def bpmDoubleUp : ℕ → ℝ → ℝ
  | 0, b => b
  | fuel + 1, b => if b < 70 then bpmDoubleUp fuel (b * 2) else b

open Classical in
/-- `while (bpm > 180) bpm /= 2`, embedded with a fuel bound. -/
noncomputable def bpmHalveDown : ℕ → ℝ → ℝ
  | 0, b => b
  | fuel + 1, b => if 180 < b then bpmHalveDown fuel (b / 2) else b

/-- `AudioAnalysisEngine.detectBPMAdvanced` from the band-pass-rendered
sample data onward: envelope → onset strength → autocorrelation → best
lag → BPM → octave folding into 70–180 → round. -/
noncomputable def detectBPMAdvanced (data : List ℝ) : ℝ :=
  let onset := bpmOnsetStrength (bpmEnvelope data)
  let lag := bpmBestLag onset
  let beatPeriodSec : ℝ := ((lag : ℝ) * (bpmHopSize : ℕ)) / ((bpmSampleRate : ℚ) : ℝ)
  let bpm : ℝ := 60 / beatPeriodSec
  ((jsRoundR (bpmHalveDown 64 (bpmDoubleUp 64 bpm)) : ℤ) : ℝ)

/-! ### Theorems -/

/-- `safe(v, d)` returns the fixed default when `v` is non-finite. -/
theorem jsSafe_of_not_finite {v : JsNum} (d : ℚ) (h : v.isFinite = false) :
    jsSafe v d = d := by
  cases v <;> simp_all [jsSafe, JsNum.isFinite]

/-- `safe(v, d)` returns `v` itself when `v` is finite. -/
theorem jsSafe_of_finite {q : ℚ} (d : ℚ) : jsSafe (.num q) d = q := rfl

/-- A merged option of finite values is finite. -/
theorem getD_isFinite {o : Option JsNum} {v : JsNum}
    (ho : ∀ x ∈ o, x.isFinite) (hv : v.isFinite = true) :
    (o.getD v).isFinite = true := by
  cases o with
  | none => simpa using hv
  | some x => simpa using ho x rfl

/-- C1 counterexample: with prior `feedback = 0.7`, the update
`{feedback: NaN}` makes `applyParams` target the feedback gain at the fixed
default `0.4`, not the last-good `0.7`, and the stored field becomes `NaN`
rather than staying at its prior value. -/
theorem delay_nan_feedback_not_last_good :
    (updateDelayParams
        { initialDelayParams (.num 120) with feedback := .num 0.7 }
        { feedback := some .nan }).2.1.feedbackGain = some 0.4 ∧
    (0.4 : ℚ) ≠ 0.7 ∧
    (updateDelayParams
        { initialDelayParams (.num 120) with feedback := .num 0.7 }
        { feedback := some .nan }).1.feedback = .nan := by
  refine ⟨?_, by norm_num, ?_⟩ <;>
    simp [updateDelayParams, mergeDelay, applyDelayParams, initialDelayParams, jsSafe]

/-- C1 amended: a non-finite value in an update is stored in the parameter
set as-is; for each `safe()`-guarded coefficient the value applied to the
signal graph is that parameter's fixed default (feedback 0.4, lowCut 80,
highCut 12000, damping 8000, modRate 0.5, modDepth 0.1, width 1, mix 0.3),
not the previously applied value; no error is surfaced. -/
theorem delay_nonfinite_update_applies_defaults
    (s : DelayParams) (p : PartialDelayParams)
    (hen : (mergeDelay s p).isEnabled = true) :
    ((mergeDelay s p).feedback.isFinite = false →
      (applyDelayParams (mergeDelay s p)).feedbackGain = some 0.4) ∧
    ((mergeDelay s p).lowCut.isFinite = false →
      (applyDelayParams (mergeDelay s p)).lowCutFreq = some 80) ∧
    ((mergeDelay s p).highCut.isFinite = false →
      (applyDelayParams (mergeDelay s p)).highCutFreq = some 12000) ∧
    ((mergeDelay s p).damping.isFinite = false →
      (applyDelayParams (mergeDelay s p)).dampingFreq = some 8000) ∧
    ((mergeDelay s p).modRate.isFinite = false →
      (applyDelayParams (mergeDelay s p)).modLfoFreq = some 0.5) ∧
    ((mergeDelay s p).modDepth.isFinite = false →
      (applyDelayParams (mergeDelay s p)).modGainL = some (0.1 * 0.005)) ∧
    ((mergeDelay s p).width.isFinite = false →
      (applyDelayParams (mergeDelay s p)).midGain = some 1 ∧
      (applyDelayParams (mergeDelay s p)).sideGain = some 1) ∧
    ((mergeDelay s p).mix.isFinite = false →
      (applyDelayParams (mergeDelay s p)).dryGain = some (1 - 0.3 * 0.5) ∧
      (applyDelayParams (mergeDelay s p)).wetGain = some 0.3) ∧
    (∀ v, p.feedback = some v → (updateDelayParams s p).1.feedback = v) := by
  refine ⟨?_, ?_, ?_, ?_, ?_, ?_, ?_, ?_, ?_⟩
  · intro h
    simp [applyDelayParams, hen, jsSafe_of_not_finite _ h]
  · intro h
    simp [applyDelayParams, hen, jsSafe_of_not_finite _ h]
  · intro h
    simp [applyDelayParams, hen, jsSafe_of_not_finite _ h]
  · intro h
    simp [applyDelayParams, hen, jsSafe_of_not_finite _ h]
  · intro h
    simp [applyDelayParams, hen, jsSafe_of_not_finite _ h]
  · intro h
    simp [applyDelayParams, hen, jsSafe_of_not_finite _ h]
  · intro h
    constructor <;> simp [applyDelayParams, hen, jsSafe_of_not_finite _ h] <;> norm_num
  · intro h
    constructor <;> simp [applyDelayParams, hen, jsSafe_of_not_finite _ h]
  · intro v hv
    simp [updateDelayParams, mergeDelay, hv]

/-- C1 amended, witness instance. -/
theorem delay_nonfinite_update_applies_defaults_witness :
    (applyDelayParams (mergeDelay (initialDelayParams (.num 120))
        { feedback := some .nan })).feedbackGain = some 0.4 :=
  (delay_nonfinite_update_applies_defaults (initialDelayParams (.num 120))
    { feedback := some .nan } (by decide)).1 (by decide)

/-- C2: whenever the stored feedback parameter is a finite value in the
documented range `[0, 0.95]`, any gain coefficient that `applyParams`
targets on the feedback stage is strictly less than `1`. -/
theorem delay_feedback_target_lt_one
    (m : DelayParams) (q : ℚ) (hq : m.feedback = .num q)
    (h0 : 0 ≤ q) (h95 : q ≤ 0.95) :
    ∀ t, (applyDelayParams m).feedbackGain = some t → t < 1 := by
  intro t ht
  by_cases hen : m.isEnabled
  · have : t = q := by
      simp [applyDelayParams, hen, hq, jsSafe] at ht
      exact ht.symm
    rw [this]
    calc q ≤ 0.95 := h95
      _ < 1 := by norm_num
  · simp [applyDelayParams, hen] at ht

/-- C2 witness: the constructor's defaults (feedback `0.4`) target a
feedback gain below `1`. -/
theorem delay_feedback_target_lt_one_witness :
    (applyDelayParams (initialDelayParams (.num 120))).feedbackGain =
      some 0.4 ∧ (0.4 : ℚ) < 1 :=
  ⟨by simp [applyDelayParams, initialDelayParams, jsSafe],
   delay_feedback_target_lt_one (initialDelayParams (.num 120)) 0.4
     rfl (by norm_num) (by norm_num) 0.4
     (by simp [applyDelayParams, initialDelayParams, jsSafe])⟩

/-- C5: for an all-finite stored set and an all-finite sparse update, the
snapshot after `updateParams` is the pointwise merge (fields absent from
the update are unchanged), and every numeric field of it is finite. -/
theorem delay_update_merges_and_stays_finite
    (s : DelayParams) (p : PartialDelayParams)
    (hs : s.allFinite) (hp : p.allFinite) :
    (getDelayParams (updateDelayParams s p).1).mode = p.mode.getD s.mode ∧
    (getDelayParams (updateDelayParams s p).1).division = p.division.getD s.division ∧
    (getDelayParams (updateDelayParams s p).1).timeMs = p.timeMs.getD s.timeMs ∧
    (getDelayParams (updateDelayParams s p).1).feedback = p.feedback.getD s.feedback ∧
    (getDelayParams (updateDelayParams s p).1).lowCut = p.lowCut.getD s.lowCut ∧
    (getDelayParams (updateDelayParams s p).1).highCut = p.highCut.getD s.highCut ∧
    (getDelayParams (updateDelayParams s p).1).damping = p.damping.getD s.damping ∧
    (getDelayParams (updateDelayParams s p).1).mix = p.mix.getD s.mix ∧
    (getDelayParams (updateDelayParams s p).1).stereoOffset = p.stereoOffset.getD s.stereoOffset ∧
    (getDelayParams (updateDelayParams s p).1).width = p.width.getD s.width ∧
    (getDelayParams (updateDelayParams s p).1).modRate = p.modRate.getD s.modRate ∧
    (getDelayParams (updateDelayParams s p).1).modDepth = p.modDepth.getD s.modDepth ∧
    (getDelayParams (updateDelayParams s p).1).drive = p.drive.getD s.drive ∧
    (getDelayParams (updateDelayParams s p).1).ducking = p.ducking.getD s.ducking ∧
    (getDelayParams (updateDelayParams s p).1).pingPong = p.pingPong.getD s.pingPong ∧
    (getDelayParams (updateDelayParams s p).1).bpm = p.bpm.getD s.bpm ∧
    (getDelayParams (updateDelayParams s p).1).isEnabled = p.isEnabled.getD s.isEnabled ∧
    (getDelayParams (updateDelayParams s p).1).allFinite := by
  obtain ⟨hs1, hs2, hs3, hs4, hs5, hs6, hs7, hs8, hs9, hs10, hs11, hs12, hs13⟩ := hs
  obtain ⟨hp1, hp2, hp3, hp4, hp5, hp6, hp7, hp8, hp9, hp10, hp11, hp12, hp13⟩ := hp
  refine ⟨rfl, rfl, rfl, rfl, rfl, rfl, rfl, rfl, rfl, rfl, rfl, rfl, rfl, rfl,
    rfl, rfl, rfl, ?_⟩
  exact ⟨getD_isFinite hp1 hs1, getD_isFinite hp2 hs2, getD_isFinite hp3 hs3,
    getD_isFinite hp4 hs4, getD_isFinite hp5 hs5, getD_isFinite hp6 hs6,
    getD_isFinite hp7 hs7, getD_isFinite hp8 hs8, getD_isFinite hp9 hs9,
    getD_isFinite hp10 hs10, getD_isFinite hp11 hs11, getD_isFinite hp12 hs12,
    getD_isFinite hp13 hs13⟩

/-- C5 witness: a concrete valid update merges and stays finite. -/
theorem delay_update_merges_and_stays_finite_witness :
    (getDelayParams (updateDelayParams (initialDelayParams (.num 120))
        { feedback := some (.num 0.5), timeMs := some (.num 100) }).1).allFinite :=
  (delay_update_merges_and_stays_finite (initialDelayParams (.num 120))
    { feedback := some (.num 0.5), timeMs := some (.num 100) }
    (by decide) (by decide)).2.2.2.2.2.2.2.2.2.2.2.2.2.2.2.2.2

/-- A tick whose detected level is at or above threshold (non-flip mode)
re-opens the gate from unity gain: target stays 1, hold timer reloads. -/
theorem processGain_open_tick (p : DenoiserParams) (buf : List ℝ)
    (tg c lvl : ℝ) (b : Bool)
    (hen : p.isEnabled = true) (hflip : p.flip = false)
    (habove : p.threshold ≤ detectedDb buf) :
    processGain p buf ⟨1, tg, c, b, lvl⟩ =
      ⟨1, 1, p.hold * 60, true, detectedDb buf⟩ := by
  simp [processGain, hen, hflip, habove]

/-- A below-threshold tick with a running hold timer: target stays 1, the
timer decrements, the smoothed gain stays at 1. -/
theorem processGain_hold_tick (p : DenoiserParams) (buf : List ℝ)
    (tg c lvl : ℝ) (b : Bool)
    (hen : p.isEnabled = true) (hflip : p.flip = false)
    (hlow : detectedDb buf < p.threshold) (hc : 0 < c) :
    processGain p buf ⟨1, tg, c, b, lvl⟩ = ⟨1, 1, c - 1, b, detectedDb buf⟩ := by
  simp [processGain, hen, hflip, not_le.mpr hlow, hc]

/-- A below-threshold tick with an expired hold timer closes the gate: the
target becomes the linear range `10^(range/20)` and the smoothed gain moves
toward it with the release time constant. -/
theorem processGain_close_tick (p : DenoiserParams) (buf : List ℝ)
    (g tg lvl : ℝ) (b : Bool)
    (hen : p.isEnabled = true) (hflip : p.flip = false)
    (hlow : detectedDb buf < p.threshold)
    (hg : (10 : ℝ) ^ (p.range / 20) ≤ g) :
    processGain p buf ⟨g, tg, 0, b, lvl⟩ =
      ⟨g + ((10 : ℝ) ^ (p.range / 20) - g) * (1 - Real.exp (-1 / (60 * p.release))),
        (10 : ℝ) ^ (p.range / 20), 0, false, detectedDb buf⟩ := by
  simp [processGain, hen, hflip, not_le.mpr hlow, not_lt.mpr hg]

/-- C3: with threshold −30 dB, hold 0.05 s and a level sitting at −10 dB
then dropping to −50 dB at tick 1 and staying there, the gain target stays
at unity for the 3 hold ticks (0.05 s at the 60 Hz rate) and the smoothed
gain holds at 1; from tick 4 on the target is the linear range
`10^(range/20)`, the smoothed gain approaches it with the release time
constant, and it never undershoots that floor. -/
theorem denoiser_gate_hold_then_release
    (p : DenoiserParams) (bufHigh bufLow : List ℝ)
    (hth : p.threshold = -30) (hhold : p.hold = 0.05)
    (hflip : p.flip = false) (hen : p.isEnabled = true)
    (hrel : 0 < p.release) (hrange : p.range ≤ 0)
    (hHigh : detectedDb bufHigh = -10) (hLow : detectedDb bufLow = -50) :
    (∀ t, 1 ≤ t → t ≤ 3 →
      (gateScenario p bufHigh bufLow t).targetGain = 1 ∧
      (gateScenario p bufHigh bufLow t).currentGain = 1) ∧
    (∀ t, 4 ≤ t →
      (gateScenario p bufHigh bufLow t).targetGain = (10 : ℝ) ^ (p.range / 20)) ∧
    (∀ t, 3 ≤ t →
      (gateScenario p bufHigh bufLow (t + 1)).currentGain =
        (gateScenario p bufHigh bufLow t).currentGain +
          ((10 : ℝ) ^ (p.range / 20) -
              (gateScenario p bufHigh bufLow t).currentGain) *
            (1 - Real.exp (-1 / (60 * p.release)))) ∧
    (∀ t, (10 : ℝ) ^ (p.range / 20) ≤
      (gateScenario p bufHigh bufLow t).currentGain) := by
  set S := gateScenario p bufHigh bufLow with hS
  set rl : ℝ := (10 : ℝ) ^ (p.range / 20) with hrldef
  set α : ℝ := 1 - Real.exp (-1 / (60 * p.release)) with hαdef
  have hrl1 : rl ≤ 1 := by
    apply Real.rpow_le_one_of_one_le_of_nonpos (by norm_num)
    linarith
  have hα0 : 0 ≤ α := by
    have h1 : -1 / (60 * p.release) ≤ 0 := by
      apply div_nonpos_of_nonpos_of_nonneg <;> nlinarith
    have := Real.exp_le_one_iff.mpr h1
    simp [hαdef]; linarith
  have hα1 : α ≤ 1 := by
    have := Real.exp_pos (-1 / (60 * p.release))
    simp [hαdef]; linarith
  have hlw : detectedDb bufLow < p.threshold := by rw [hLow, hth]; norm_num
  have h0 : S 0 = ⟨1, 1, 3, true, -10⟩ := by
    have e : S 0 = processGain p bufHigh initialGateState := rfl
    rw [e, show initialGateState = (⟨1, 1, 0, true, -100⟩ : GateState) from rfl,
      processGain_open_tick p bufHigh 1 0 (-100) true hen hflip
        (by rw [hHigh, hth]; norm_num), hhold, hHigh]
    norm_num
  have h1 : S 1 = ⟨1, 1, 2, true, -50⟩ := by
    have e : S 1 = processGain p bufLow (S 0) := rfl
    rw [e, h0, processGain_hold_tick p bufLow 1 3 (-10) true hen hflip hlw
      (by norm_num), hLow]
    norm_num
  have h2 : S 2 = ⟨1, 1, 1, true, -50⟩ := by
    have e : S 2 = processGain p bufLow (S 1) := rfl
    rw [e, h1, processGain_hold_tick p bufLow 1 2 (-50) true hen hflip hlw
      (by norm_num), hLow]
    norm_num
  have h3 : S 3 = ⟨1, 1, 0, true, -50⟩ := by
    have e : S 3 = processGain p bufLow (S 2) := rfl
    rw [e, h2, processGain_hold_tick p bufLow 1 1 (-50) true hen hflip hlw
      (by norm_num), hLow]
    norm_num
  have hclosed : ∀ n, ∃ g, S (4 + n) = ⟨g, rl, 0, false, -50⟩ ∧ rl ≤ g ∧ g ≤ 1 := by
    intro n
    induction n with
    | zero =>
      refine ⟨1 + (rl - 1) * α, ?_, by nlinarith, by nlinarith⟩
      have e : S (4 + 0) = processGain p bufLow (S 3) := rfl
      rw [e, h3, processGain_close_tick p bufLow 1 1 (-50) true hen hflip hlw
        (by rw [← hrldef]; exact hrl1), hLow, ← hrldef, ← hαdef]
    | succ k ih =>
      obtain ⟨g, hg, hgl, hgu⟩ := ih
      refine ⟨g + (rl - g) * α, ?_, by nlinarith, by nlinarith⟩
      have e : S (4 + (k + 1)) = processGain p bufLow (S (4 + k)) := rfl
      rw [e, hg, processGain_close_tick p bufLow g rl (-50) false hen hflip hlw
        (by rw [← hrldef]; exact hgl), hLow, ← hrldef, ← hαdef]
  refine ⟨?_, ?_, ?_, ?_⟩
  · intro t ht1 ht3
    interval_cases t
    · rw [h1]; exact ⟨rfl, rfl⟩
    · rw [h2]; exact ⟨rfl, rfl⟩
    · rw [h3]; exact ⟨rfl, rfl⟩
  · intro t ht
    obtain ⟨n, rfl⟩ := Nat.exists_eq_add_of_le ht
    obtain ⟨g, hg, -, -⟩ := hclosed n
    rw [hg]
  · intro t ht
    obtain ⟨n, rfl⟩ := Nat.exists_eq_add_of_le ht
    cases n with
    | zero =>
      have e : S (3 + 0 + 1) = processGain p bufLow (S 3) := rfl
      rw [e, h3, processGain_close_tick p bufLow 1 1 (-50) true hen hflip hlw
        (by rw [← hrldef]; exact hrl1), ← hrldef, ← hαdef]
    | succ k =>
      obtain ⟨g, hg, hgl, -⟩ := hclosed k
      have e2 : 3 + (k + 1) = 4 + k := by omega
      have e : S (3 + (k + 1) + 1) = processGain p bufLow (S (4 + k)) := by
        rw [e2]; rfl
      rw [e, hg, processGain_close_tick p bufLow g rl (-50) false hen hflip hlw
        (by rw [← hrldef]; exact hgl), ← hrldef, ← hαdef, e2, hg]
  · intro t
    rcases Nat.lt_or_ge t 4 with h4 | h4
    · interval_cases t
      · rw [h0]; exact hrl1
      · rw [h1]; exact hrl1
      · rw [h2]; exact hrl1
      · rw [h3]; exact hrl1
    · obtain ⟨n, rfl⟩ := Nat.exists_eq_add_of_le h4
      obtain ⟨g, hg, hgl, -⟩ := hclosed n
      rw [hg]; exact hgl

/-- The dB detector level of a one-sample window holding `10^e`. -/
theorem detectedDb_single_rpow (e : ℝ) (he : -6 ≤ e) :
    detectedDb [(10 : ℝ) ^ e] = 20 * e := by
  have h10 : (0 : ℝ) < 10 := by norm_num
  have hx : (0 : ℝ) < (10 : ℝ) ^ e := Real.rpow_pos_of_pos h10 e
  have hrms : rmsOf [(10 : ℝ) ^ e] = (10 : ℝ) ^ e := by
    simp only [rmsOf, sumSquares, List.map_cons, List.map_nil, List.sum_cons,
      List.sum_nil, add_zero, List.length_singleton, Nat.cast_one, div_one]
    exact Real.sqrt_mul_self hx.le
  have hfloor : (0.000001 : ℝ) ≤ (10 : ℝ) ^ e := by
    have h6 : (10 : ℝ) ^ (-6 : ℝ) ≤ (10 : ℝ) ^ e :=
      (Real.rpow_le_rpow_left_iff (by norm_num)).mpr he
    have he6 : (10 : ℝ) ^ (-6 : ℝ) = 0.000001 := by
      rw [show (-6 : ℝ) = -((6 : ℕ) : ℝ) by norm_num, Real.rpow_neg h10.le,
        Real.rpow_natCast]
      norm_num
    calc (0.000001 : ℝ) = (10 : ℝ) ^ (-6 : ℝ) := he6.symm
      _ ≤ (10 : ℝ) ^ e := h6
  rw [detectedDb, hrms, max_eq_left hfloor,
    Real.logb_rpow (by norm_num) (by norm_num)]

/-- C3 witness: a concrete gate (threshold −30 dB, range −40 dB, hold
0.05 s, release 0.15 s) run on one-sample windows at −10 dB then −50 dB
never undershoots its configured floor. -/
theorem denoiser_gate_hold_then_release_witness :
    (10 : ℝ) ^
        ((DenoiserParams.mk (-30) (-40) 0.005 0.05 0.15 1000 false true).range / 20) ≤
      (gateScenario (DenoiserParams.mk (-30) (-40) 0.005 0.05 0.15 1000 false true)
          [(10 : ℝ) ^ (-(1 : ℝ) / 2)] [(10 : ℝ) ^ (-(5 : ℝ) / 2)] 5).currentGain :=
  (denoiser_gate_hold_then_release
    (DenoiserParams.mk (-30) (-40) 0.005 0.05 0.15 1000 false true)
    [(10 : ℝ) ^ (-(1 : ℝ) / 2)] [(10 : ℝ) ^ (-(5 : ℝ) / 2)]
    rfl rfl rfl rfl (by norm_num) (by norm_num)
    (by rw [detectedDb_single_rpow _ (by norm_num)]; norm_num)
    (by rw [detectedDb_single_rpow _ (by norm_num)]; norm_num)).2.2.2 5

/-- `|tanh y| < 1` for every real `y`. -/
theorem abs_tanh_lt_one (y : ℝ) : |Real.tanh y| < 1 := by
  have key : ∀ z : ℝ, Real.tanh z < 1 := by
    intro z
    rw [Real.tanh_eq_sinh_div_cosh, div_lt_one (Real.cosh_pos z)]
    exact Real.sinh_lt_cosh z
  rw [abs_lt]
  refine ⟨?_, key y⟩
  have := key (-y)
  rw [Real.tanh_neg] at this
  linarith

/-- C4 counterexample: the CLEAN compressor mode and the delay's clean
drive setting (`drive < 0.1`) precompute the identity curve, whose first
sample (`x = −1`) has magnitude 1, which is not below the 0.95 ceiling. -/
theorem clean_curves_reach_full_scale :
    |saturationCurve .CLEAN 0| = 1 ∧ ¬ |saturationCurve .CLEAN 0| < 0.95 ∧
    |tapeDriveCurve 0 0| = 1 ∧ ¬ |tapeDriveCurve 0 0| < 0.95 := by
  have h1 : saturationCurve .CLEAN 0 = -1 := by
    simp [saturationCurve]
  have h2 : tapeDriveCurve 0 0 = -1 := by
    simp only [tapeDriveCurve]
    norm_num
  rw [h1, h2]
  norm_num

/-- C4 amended: every genuinely saturating curve stays strictly below the
0.95 ceiling on the whole precomputed input grid: the VCA/OPTO/FET
compressor modes, and the delay drive curve whenever `drive ≥ 0.1`.  (The
CLEAN mode and the delay's `drive < 0.1` branch are the identity and reach
magnitude 1.) -/
theorem saturating_curves_below_ceiling (mode : CompMode) (drive : ℝ) (i : ℕ)
    (hm : mode ≠ .CLEAN) (hd : 0.1 ≤ drive) (hi : i < 44100) :
    |saturationCurve mode i| < 0.95 ∧ |tapeDriveCurve drive i| < 0.95 := by
  have hx0 : (0 : ℝ) ≤ (i * 2 : ℝ) / 44100 := by positivity
  have hx1 : (i * 2 : ℝ) / 44100 < 2 := by
    rw [div_lt_iff (by norm_num : (0 : ℝ) < 44100)]
    have : (i : ℝ) < 44100 := by exact_mod_cast hi
    nlinarith
  have hxabs : |(i * 2 : ℝ) / 44100 - 1| ≤ 1 := by
    rw [abs_le]; constructor <;> linarith
  constructor
  · cases mode with
    | CLEAN => exact absurd rfl hm
    | VCA =>
      show |Real.tanh (((i * 2 : ℝ) / 44100 - 1) * 1.2) * 0.95| < 0.95
      rw [abs_mul]
      have := abs_tanh_lt_one (((i * 2 : ℝ) / 44100 - 1) * 1.2)
      rw [show |(0.95 : ℝ)| = 0.95 by norm_num]
      nlinarith [abs_nonneg (Real.tanh (((i * 2 : ℝ) / 44100 - 1) * 1.2))]
    | OPTO =>
      show |3 * ((i * 2 : ℝ) / 44100 - 1) / (1 + 2 * |(i * 2 : ℝ) / 44100 - 1|) * 0.9| < 0.95
      set x : ℝ := (i * 2 : ℝ) / 44100 - 1 with hxdef
      have hden : (0 : ℝ) < 1 + 2 * |x| := by positivity
      rw [abs_mul, abs_div, abs_mul, abs_of_pos hden]
      have hnum : |(3 : ℝ)| * |x| ≤ 1 + 2 * |x| := by
        rw [show |(3 : ℝ)| = 3 by norm_num]
        linarith [hxabs]
      have hq : |(3 : ℝ)| * |x| / (1 + 2 * |x|) ≤ 1 := by
        rw [div_le_one hden]; exact hnum
      have hq0 : (0 : ℝ) ≤ |(3 : ℝ)| * |x| / (1 + 2 * |x|) := by positivity
      rw [show |(0.9 : ℝ)| = 0.9 by norm_num]
      nlinarith
    | FET =>
      show |jsSign ((i * 2 : ℝ) / 44100 - 1) *
        (1 - Real.exp (-|(i * 2 : ℝ) / 44100 - 1| * 2)) * 0.85| < 0.95
      set x : ℝ := (i * 2 : ℝ) / 44100 - 1 with hxdef
      have hsign : |jsSign x| ≤ 1 := by
        unfold jsSign; split_ifs <;> norm_num
      have hexp0 : (0 : ℝ) < Real.exp (-|x| * 2) := Real.exp_pos _
      have hexp1 : Real.exp (-|x| * 2) ≤ 1 := by
        rw [Real.exp_le_one_iff]
        nlinarith [abs_nonneg x]
      have henv : |1 - Real.exp (-|x| * 2)| < 1 := by
        rw [abs_lt]; constructor <;> linarith
      rw [abs_mul, abs_mul, show |(0.85 : ℝ)| = 0.85 by norm_num]
      nlinarith [abs_nonneg (jsSign x), abs_nonneg (1 - Real.exp (-|x| * 2))]
  · show |tapeDriveCurve drive i| < 0.95
    rw [tapeDriveCurve]
    rw [if_neg (by linarith : ¬ drive < 0.1)]
    have := abs_tanh_lt_one
      (((i * 2 : ℝ) / 44100 - 1) * (1 + (10 + drive * 90) * 0.1))
    rw [abs_mul, show |(0.9 : ℝ)| = 0.9 by norm_num]
    nlinarith [abs_nonneg (Real.tanh (((i * 2 : ℝ) / 44100 - 1) *
      (1 + (10 + drive * 90) * 0.1)))]

/-- C4 amended, witness instance: the VCA curve's first sample and the
drive-0.5 tape curve's first sample are below the ceiling. -/
theorem saturating_curves_below_ceiling_witness :
    |saturationCurve .VCA 0| < 0.95 ∧ |tapeDriveCurve 0.5 0| < 0.95 :=
  saturating_curves_below_ceiling .VCA 0.5 0 (by simp) (by norm_num) (by norm_num)


/-- Reverb updates that name none of decay/size/mode/freeze only merge the
parameter set; the convolver buffer, the stored freeze buffer and the
frozen flag are untouched. -/
theorem updateReverb_untouched (sampleRate : ℚ) (r1 r2 r3 r4 : ℕ → ℝ)
    (st : ReverbState) (u : PartialReverbParams) (hu : u.untouched) :
    updateReverbParams sampleRate r1 r2 r3 r4 st u =
      { st with params := mergeReverb st.params u } := by
  obtain ⟨hd, hs, hm, hf⟩ := hu
  have hmd : (mergeReverb st.params u).decay = st.params.decay := by
    simp [mergeReverb, hd]
  have hms : (mergeReverb st.params u).size = st.params.size := by
    simp [mergeReverb, hs]
  have hmm : (mergeReverb st.params u).mode = st.params.mode := by
    simp [mergeReverb, hm]
  have hmf : (mergeReverb st.params u).freeze = st.params.freeze := by
    simp [mergeReverb, hf]
  simp only [updateReverbParams]
  cases hfb : st.params.freeze with
  | false =>
    rw [if_neg (by rw [hmf, hfb]; simp), if_neg (by simp),
      if_neg (by rw [hmd, hms, hmm]; simp)]
  | true =>
    rw [if_neg (by simp), if_neg (by rw [hmf, hfb]; simp),
      if_neg (by rw [hmd, hms, hmm]; simp)]

/-- `activateFreeze` via `updateParams {freeze: true}` (no decay/size/mode
change): the current convolver buffer is stored and replaced by noise. -/
theorem updateReverb_freeze_on (sampleRate : ℚ) (r1 r2 r3 r4 : ℕ → ℝ)
    (st : ReverbState) (u : PartialReverbParams)
    (hf : u.freeze = some true) (hd : u.decay = none) (hs : u.size = none)
    (hm : u.mode = none) (hpf : st.params.freeze = false) :
    updateReverbParams sampleRate r1 r2 r3 r4 st u =
      { params := mergeReverb st.params u
        convolverBuffer := freezeNoiseBuffer sampleRate r3 r4
        freezeBuffer := some st.convolverBuffer
        isFrozen := true } := by
  have hmd : (mergeReverb st.params u).decay = st.params.decay := by
    simp [mergeReverb, hd]
  have hms : (mergeReverb st.params u).size = st.params.size := by
    simp [mergeReverb, hs]
  have hmm : (mergeReverb st.params u).mode = st.params.mode := by
    simp [mergeReverb, hm]
  have hmf : (mergeReverb st.params u).freeze = true := by
    simp [mergeReverb, hf]
  simp only [updateReverbParams]
  rw [if_pos ⟨hmf, hpf⟩, if_neg (by rw [hmd, hms, hmm]; simp)]

/-- `deactivateFreeze` via `updateParams {freeze: false}` (no
decay/size/mode change) with a stored buffer: the stored buffer is put
back on the convolver without any regeneration. -/
theorem updateReverb_freeze_off (sampleRate : ℚ) (r1 r2 r3 r4 : ℕ → ℝ)
    (st : ReverbState) (u : PartialReverbParams) (B : IRBuffer)
    (hf : u.freeze = some false) (hd : u.decay = none) (hs : u.size = none)
    (hm : u.mode = none) (hpf : st.params.freeze = true)
    (hB : st.freezeBuffer = some B) :
    updateReverbParams sampleRate r1 r2 r3 r4 st u =
      { params := mergeReverb st.params u
        convolverBuffer := B
        freezeBuffer := st.freezeBuffer
        isFrozen := false } := by
  have hmd : (mergeReverb st.params u).decay = st.params.decay := by
    simp [mergeReverb, hd]
  have hms : (mergeReverb st.params u).size = st.params.size := by
    simp [mergeReverb, hs]
  have hmm : (mergeReverb st.params u).mode = st.params.mode := by
    simp [mergeReverb, hm]
  have hmf : (mergeReverb st.params u).freeze = false := by
    simp [mergeReverb, hf]
  simp only [updateReverbParams]
  rw [if_neg (by rw [hmf]; simp), if_pos ⟨hmf, hpf⟩,
    if_neg (by rw [hmd, hms, hmm]; simp), hB]

/-- C6: activating freeze and later deactivating it, with only updates
that change none of decay, size or mode in between, restores the exact
pre-freeze impulse-response buffer on the convolver (no regeneration —
the same buffer value, not a freshly generated one). -/
theorem reverb_freeze_unfreeze_restores_buffer
    (sampleRate : ℚ) (rndIrL rndIrR rndNzL rndNzR : ℕ → ℝ)
    (s : ReverbState) (hfreeze : s.params.freeze = false)
    (u1 u2 : PartialReverbParams) (mid : List PartialReverbParams)
    (hu1f : u1.freeze = some true)
    (hu1d : u1.decay = none) (hu1s : u1.size = none) (hu1m : u1.mode = none)
    (hu2f : u2.freeze = some false)
    (hu2d : u2.decay = none) (hu2s : u2.size = none) (hu2m : u2.mode = none)
    (hmid : ∀ u ∈ mid, u.untouched) :
    (updateReverbParams sampleRate rndIrL rndIrR rndNzL rndNzR
        (mid.foldl (updateReverbParams sampleRate rndIrL rndIrR rndNzL rndNzR)
          (updateReverbParams sampleRate rndIrL rndIrR rndNzL rndNzR s u1))
        u2).convolverBuffer = s.convolverBuffer := by
  set upd := updateReverbParams sampleRate rndIrL rndIrR rndNzL rndNzR with hupd
  have hst1 : upd s u1 =
      { params := mergeReverb s.params u1
        convolverBuffer := freezeNoiseBuffer sampleRate rndNzL rndNzR
        freezeBuffer := some s.convolverBuffer
        isFrozen := true } := by
    rw [hupd]
    exact updateReverb_freeze_on sampleRate rndIrL rndIrR rndNzL rndNzR s u1
      hu1f hu1d hu1s hu1m hfreeze
  have hu1fr : (mergeReverb s.params u1).freeze = true := by
    simp [mergeReverb, hu1f]
  have hfold : ∀ (l : List PartialReverbParams) (st : ReverbState),
      (∀ u ∈ l, u.untouched) →
      st.freezeBuffer = some s.convolverBuffer → st.params.freeze = true →
      (l.foldl upd st).freezeBuffer = some s.convolverBuffer ∧
        (l.foldl upd st).params.freeze = true := by
    intro l
    induction l with
    | nil => intro st _ h1 h2; exact ⟨h1, h2⟩
    | cons u l ih =>
      intro st hl h1 h2
      have hu := hl u (List.mem_cons_self u l)
      have hstep : upd st u = { st with params := mergeReverb st.params u } := by
        rw [hupd]
        exact updateReverb_untouched sampleRate rndIrL rndIrR rndNzL rndNzR st u hu
      have hfr : (mergeReverb st.params u).freeze = st.params.freeze := by
        simp [mergeReverb, hu.2.2.2]
      refine ih (upd st u) (fun v hv => hl v (List.mem_cons_of_mem u hv)) ?_ ?_
      · rw [hstep]; exact h1
      · rw [hstep]; show (mergeReverb st.params u).freeze = true
        rw [hfr]; exact h2
  obtain ⟨hN1, hN2⟩ := hfold mid (upd s u1) hmid
    (by rw [hst1]) (by rw [hst1]; exact hu1fr)
  have hfinal := updateReverb_freeze_off sampleRate rndIrL rndIrR rndNzL rndNzR
    (mid.foldl upd (upd s u1)) u2 s.convolverBuffer hu2f hu2d hu2s hu2m hN2 hN1
  show (updateReverbParams sampleRate rndIrL rndIrR rndNzL rndNzR
      (mid.foldl upd (upd s u1)) u2).convolverBuffer = s.convolverBuffer
  rw [hfinal]

/-- C6 witness: a concrete freeze/unfreeze round trip (no mid updates)
restores the buffer. -/
theorem reverb_freeze_unfreeze_restores_buffer_witness :
    (updateReverbParams 44100 (fun _ => 0) (fun _ => 0) (fun _ => 0) (fun _ => 0)
        (List.foldl (updateReverbParams 44100 (fun _ => 0) (fun _ => 0)
            (fun _ => 0) (fun _ => 0)) (updateReverbParams 44100 (fun _ => 0)
            (fun _ => 0) (fun _ => 0) (fun _ => 0)
            (ReverbState.mk initialReverbParams
              (IRBuffer.mk 7 (fun _ => 1) (fun _ => 2)) none false)
            { freeze := some true }) [])
        { freeze := some false }).convolverBuffer =
      IRBuffer.mk 7 (fun _ => 1) (fun _ => 2) :=
  reverb_freeze_unfreeze_restores_buffer 44100 (fun _ => 0) (fun _ => 0)
    (fun _ => 0) (fun _ => 0)
    (ReverbState.mk initialReverbParams
      (IRBuffer.mk 7 (fun _ => 1) (fun _ => 2)) none false)
    rfl { freeze := some true } { freeze := some false } []
    rfl rfl rfl rfl rfl rfl rfl rfl (by intro u hu; cases hu)

/-- C7 counterexample: at sample rate 44100 and decay 0.9999 s (inside the
documented 0.1–15 s range) the generated per-channel length is
`floor(44100 · 0.9999) = 44095`, while the claimed
`round(44100 · min(0.9999, 15)) = 44096`. -/
theorem reverb_ir_length_floor_not_round :
    (generateImpulseResponse 44100 { initialReverbParams with decay := 0.9999 }
        (fun _ => 0) (fun _ => 0)).numFrames = 44095 ∧
    jsRoundQ (44100 * min (0.9999 : ℚ) 15) = 44096 ∧
    (44095 : ℤ) ≠ 44096 := by
  have hmin : min (0.9999 : ℚ) 15 = 0.9999 := by
    rw [min_eq_left]; norm_num
  refine ⟨?_, ?_, by norm_num⟩
  · show (Int.floor ((44100 : ℚ) *
        min ({ initialReverbParams with decay := 0.9999 } : ReverbParams).decay 15)).toNat
      = 44095
    have hdec : ({ initialReverbParams with decay := 0.9999 } : ReverbParams).decay
        = 0.9999 := rfl
    rw [hdec, hmin]
    have : Int.floor ((44100 : ℚ) * 0.9999) = 44095 := by
      rw [Int.floor_eq_iff] <;> norm_num
    rw [this]
    rfl
  · rw [jsRoundQ, hmin]
    rw [Int.floor_eq_iff] <;> norm_num

/-- C7 amended: the generated impulse-response buffer has, per channel,
`floor(sample_rate · min(decay, 15))` frames (the decay time is capped at
15 s); the code floors rather than rounds. -/
theorem reverb_ir_length_eq_floor (sampleRate : ℚ) (p : ReverbParams)
    (rndL rndR : ℕ → ℝ) (h0 : 0 ≤ sampleRate) (hdec : 0 ≤ p.decay) :
    ((generateImpulseResponse sampleRate p rndL rndR).numFrames : ℤ)
        = Int.floor (sampleRate * min p.decay 15) ∧
      (15 ≤ p.decay →
        ((generateImpulseResponse sampleRate p rndL rndR).numFrames : ℤ)
          = Int.floor (sampleRate * 15)) := by
  have hnn : (0 : ℚ) ≤ sampleRate * min p.decay 15 :=
    mul_nonneg h0 (le_min hdec (by norm_num))
  have h1 : ((generateImpulseResponse sampleRate p rndL rndR).numFrames : ℤ)
      = Int.floor (sampleRate * min p.decay 15) := by
    show ((Int.floor (sampleRate * min p.decay 15)).toNat : ℤ) = _
    exact Int.toNat_of_nonneg (Int.floor_nonneg.mpr hnn)
  exact ⟨h1, fun h15 => by rw [h1, min_eq_right h15]⟩

/-- C7 amended, witness instance: the default parameter set at 44100 Hz
generates `floor(44100 · 2.5) = 110250` frames per channel. -/
theorem reverb_ir_length_eq_floor_witness :
    ((generateImpulseResponse 44100 initialReverbParams (fun _ => 0)
        (fun _ => 0)).numFrames : ℤ)
      = Int.floor ((44100 : ℚ) * min initialReverbParams.decay 15) :=
  (reverb_ir_length_eq_floor 44100 initialReverbParams (fun _ => 0) (fun _ => 0)
    (by norm_num) (by norm_num [initialReverbParams])).1


/-- C8: whenever the analysis window's RMS is below the 0.01 floor, the
pitch detector reports "no pitch" (0); in particular on silence. -/
theorem detectPitch_rms_gate (sampleRate : ℝ) (buffer : List ℝ)
    (h : Real.sqrt (sumSquares buffer / buffer.length) < 0.01) :
    detectPitch sampleRate buffer = 0 := by
  simp only [detectPitch]
  rw [if_pos h]

/-- C8 witness: a silent buffer yields no pitch detected. -/
theorem detectPitch_rms_gate_witness : detectPitch 44100 [0, 0, 0] = 0 :=
  detectPitch_rms_gate 44100 [0, 0, 0] (by
    simp [sumSquares]
    norm_num)

/-- C10: for a non-positive detected frequency (the "no pitch" case) the
nearest-note mapping is the identity, the target ratio computed by
`process` is 1, and the smoothed pitch-shift ratio stays at 1. -/
theorem autotune_identity_on_no_pitch (f : ℝ) (hf : f ≤ 0)
    (rootKey scaleIdx : ℤ) (retuneSpeed : ℝ) :
    getNearestFreq f rootKey scaleIdx = f ∧
    targetRatioOf f (getNearestFreq f rootKey scaleIdx) = 1 ∧
    nextRatio 1 retuneSpeed f rootKey scaleIdx = 1 := by
  have h1 : getNearestFreq f rootKey scaleIdx = f := by
    simp only [getNearestFreq]
    rw [if_pos hf]
  have h2 : targetRatioOf f (getNearestFreq f rootKey scaleIdx) = 1 := by
    rw [h1]
    simp only [targetRatioOf]
    rw [if_neg (by intro hand; linarith [hand.1])]
    rw [min_eq_right (by norm_num : (1 : ℝ) ≤ 2.0),
      max_eq_right (by norm_num : (0.5 : ℝ) ≤ 1)]
  refine ⟨h1, h2, ?_⟩
  simp only [nextRatio]
  rw [h2]
  ring

/-- C10 witness. -/
theorem autotune_identity_on_no_pitch_witness :
    nextRatio 1 0.1 0 0 0 = 1 :=
  (autotune_identity_on_no_pitch 0 le_rfl 0 0 0.1).2.2

/-- `hopSize` evaluates to 110 samples. -/
theorem bpmHopSize_eq : bpmHopSize = 110 := by
  have h : Int.floor ((11025 : ℚ) * 0.01) = 110 := by
    rw [Int.floor_eq_iff] <;> norm_num
  unfold bpmHopSize bpmSampleRate
  rw [h]
  rfl

/-- `minLag` evaluates to 30. -/
theorem bpmMinLag_eq : bpmMinLag = 30 := by
  have h : Int.floor ((60 / 200 : ℚ) * (11025 / (110 : ℚ))) = 30 := by
    rw [Int.floor_eq_iff] <;> norm_num
  unfold bpmMinLag bpmSampleRate
  rw [bpmHopSize_eq]
  rw [show ((110 : ℕ) : ℚ) = (110 : ℚ) by norm_num, h]
  rfl

/-- `maxLag` evaluates to 100. -/
theorem bpmMaxLag_eq : bpmMaxLag = 100 := by
  have h : Int.floor ((60 / 60 : ℚ) * (11025 / (110 : ℚ))) = 100 := by
    rw [Int.floor_eq_iff] <;> norm_num
  unfold bpmMaxLag bpmSampleRate
  rw [bpmHopSize_eq]
  rw [show ((110 : ℕ) : ℚ) = (110 : ℚ) by norm_num, h]
  rfl

/-- The strict-maximum search keeps its initial index or picks one of the
scanned lags. -/
theorem foldl_best_mem (f : ℕ → ℝ) :
    ∀ (l : List ℕ) (acc : ℝ × ℕ),
      (l.foldl (fun a lag => if a.1 < f lag then (f lag, lag) else a) acc).2
          = acc.2 ∨
      (l.foldl (fun a lag => if a.1 < f lag then (f lag, lag) else a) acc).2
          ∈ l := by
  intro l
  induction l with
  | nil => intro acc; left; rfl
  | cons x xs ih =>
    intro acc
    rw [List.foldl_cons]
    rcases ih (if acc.1 < f x then (f x, x) else acc) with h | h
    · rw [h]
      by_cases hc : acc.1 < f x
      · rw [if_pos hc]; right; exact List.mem_cons_self x xs
      · rw [if_neg hc]; left; rfl
    · right; exact List.mem_cons_of_mem x h

/-- The best lag lies in the scanned 30–100 window. -/
theorem bpmBestLag_bounds (onset : List ℝ) :
    30 ≤ bpmBestLag onset ∧ bpmBestLag onset ≤ 100 := by
  unfold bpmBestLag
  rw [bpmMinLag_eq, bpmMaxLag_eq]
  rcases foldl_best_mem (bpmAutocorrAt onset) (List.range' 30 (100 - 30 + 1))
      ((0 : ℝ), 30) with h | h
  · rw [h]; exact ⟨le_rfl, by norm_num⟩
  · rw [List.mem_range'_1] at h
    exact ⟨h.1, by omega⟩

/-- Values already at or above 70 pass through the doubling loop. -/
theorem bpmDoubleUp_of_ge (fuel : ℕ) (b : ℝ) (h : 70 ≤ b) :
    bpmDoubleUp fuel b = b := by
  cases fuel <;> simp [bpmDoubleUp, not_lt.mpr h]

/-- One doubling suffices when `35 ≤ b < 70`. -/
theorem bpmDoubleUp_once (fuel : ℕ) (b : ℝ) (h : b < 70) (h2 : 70 ≤ b * 2) :
    bpmDoubleUp (fuel + 1) b = b * 2 := by
  simp only [bpmDoubleUp, if_pos h]
  exact bpmDoubleUp_of_ge fuel (b * 2) h2

/-- Values already at or below 180 pass through the halving loop. -/
theorem bpmHalveDown_of_le (fuel : ℕ) (b : ℝ) (h : b ≤ 180) :
    bpmHalveDown fuel b = b := by
  cases fuel <;> simp [bpmHalveDown, not_lt.mpr h]

/-- One halving suffices when `180 < b ≤ 360`. -/
theorem bpmHalveDown_once (fuel : ℕ) (b : ℝ) (h : 180 < b) (h2 : b / 2 ≤ 180) :
    bpmHalveDown (fuel + 1) b = b / 2 := by
  simp only [bpmHalveDown, if_pos h]
  exact bpmHalveDown_of_le fuel (b / 2) h2

/-- Rounding a real in [70, 180] gives an integer in [70, 180]. -/
theorem jsRoundR_bounds (x : ℝ) (h1 : 70 ≤ x) (h2 : x ≤ 180) :
    70 ≤ jsRoundR x ∧ jsRoundR x ≤ 180 := by
  constructor
  · apply Int.le_floor.mpr
    push_cast
    linarith
  · have : jsRoundR x < 181 := by
      apply Int.floor_lt.mpr
      push_cast
      linarith
    omega

/-- C9: for every rendered input, `detectBPMAdvanced` returns a whole
number in the canonical 70–180 range: the raw BPM from the best
autocorrelation lag is doubled while below 70, halved while above 180,
then rounded to the nearest integer. -/
theorem detectBPM_integer_in_range (data : List ℝ) :
    ∃ k : ℤ, detectBPMAdvanced data = (k : ℝ) ∧ 70 ≤ k ∧ k ≤ 180 := by
  simp only [detectBPMAdvanced]
  set onset := bpmOnsetStrength (bpmEnvelope data) with honset
  set lag := bpmBestLag onset with hlagdef
  obtain ⟨hlag30, hlag100⟩ := bpmBestLag_bounds onset
  set b : ℝ := 60 / (((lag : ℝ) * (bpmHopSize : ℕ)) / ((bpmSampleRate : ℚ) : ℝ))
    with hbdef
  refine ⟨jsRoundR (bpmHalveDown 64 (bpmDoubleUp 64 b)), rfl, ?_⟩
  have hhop : ((bpmHopSize : ℕ) : ℝ) = 110 := by rw [bpmHopSize_eq]; norm_num
  have hsr : ((bpmSampleRate : ℚ) : ℝ) = 11025 := by
    unfold bpmSampleRate; norm_num
  have hlagR30 : (30 : ℝ) ≤ (lag : ℝ) := by exact_mod_cast hlag30
  have hlagR100 : (lag : ℝ) ≤ 100 := by exact_mod_cast hlag100
  set d : ℝ := ((lag : ℝ) * (bpmHopSize : ℕ)) / ((bpmSampleRate : ℚ) : ℝ)
    with hddef
  have hd_lo : (3300 / 11025 : ℝ) ≤ d := by
    rw [hddef, hhop, hsr]
    gcongr
    linarith
  have hd_hi : d ≤ (11000 / 11025 : ℝ) := by
    rw [hddef, hhop, hsr]
    gcongr
    linarith
  have hd_pos : (0 : ℝ) < d := by linarith [hd_lo]
  have hb_lo : (60 : ℝ) ≤ b := by
    rw [hbdef, le_div_iff hd_pos]
    nlinarith
  have hb_hi : b ≤ 201 := by
    rw [hbdef, div_le_iff hd_pos]
    nlinarith
  have key : 70 ≤ bpmHalveDown 64 (bpmDoubleUp 64 b) ∧
      bpmHalveDown 64 (bpmDoubleUp 64 b) ≤ 180 := by
    by_cases h70 : 70 ≤ b
    · rw [bpmDoubleUp_of_ge 64 b h70]
      by_cases h180 : b ≤ 180
      · rw [bpmHalveDown_of_le 64 b h180]
        exact ⟨h70, h180⟩
      · push_neg at h180
        rw [show (64 : ℕ) = 63 + 1 from rfl,
          bpmHalveDown_once 63 b h180 (by linarith)]
        constructor <;> linarith
    · push_neg at h70
      rw [show (64 : ℕ) = 63 + 1 from rfl,
        bpmDoubleUp_once 63 b h70 (by linarith)]
      rw [bpmHalveDown_of_le _ (b * 2) (by linarith)]
      constructor <;> linarith
  exact jsRoundR_bounds _ key.1 key.2

end DAW
